import Mathlib

/-!
Verification of the HTTP gateway layer in src/apps.ts.

The file shallowly embeds the gateway: the fixed CORS options object, the
middleware and route registrations performed by the App, PublicApp and
PrivateApp constructors (modelled as an ordered list of registrations, since
express evaluates middleware in registration order), the centralized error
translator handleErrors (modelled as the trace of effects it performs on the
logger and the response), the morgan access-log stream writer, and the start
lifecycle call (modelled with the outcome the server reports to the listen
callback as an explicit parameter).
-/

/-- CORS options object, mirroring the cors.CorsOptions literal
assigned to the App class field at src/apps.ts lines 31-37. -/
structure CorsOptions where
  allowedHeaders : List String
  credentials : Bool
  methods : String
  origin : String
  preflightContinue : Bool
deriving DecidableEq

/-- The handler and broker dependencies that route bindings can receive
(the handler types imported at the top of apps.ts). -/
inductive Dep where
  | peerHandler
  | messageBroker
  | walletHandler
  | tokenHandler
  | transactionHandler
  | blockHandler
deriving DecidableEq

/-- HTTP methods used by the route tables of apps.ts. -/
inductive HttpMethod where
  | get
  | post
deriving DecidableEq

/-- The middleware installed by the App constructor, in the order the
corresponding server.use lines appear at src/apps.ts lines 44-60. -/
inductive Middleware where
  | compression
  | morganCombined
  | bodyParserJson
  | bodyParserUrlencoded (extended : Bool)
  | expressValidator
  | corsMw (o : CorsOptions)
deriving DecidableEq

/-- One registration on the express server: a middleware installation, a
resource route binding (method, path, controller function, injected
dependencies), the error-handling middleware, or the OPTIONS preflight
responder. The server keeps these in registration order. -/
inductive Registration where
  | mw (m : Middleware)
  | route (method : HttpMethod) (path : String) (controller : String) (deps : List Dep)
  | errorHandler
  | optionsRoute (path : String) (o : CorsOptions)
deriving DecidableEq

/-- A JavaScript error value as handleErrors receives it: a message, an
optional stack, and httpStatusCode equal to some code exactly when the value
is an instance of OrbError (every OrbError carries an httpStatusCode). -/
structure JsError where
  message : String
  stack : Option String
  httpStatusCode : Option Nat
deriving DecidableEq

/-- An observable effect of the error translator: a logger.error call, a
res.status call, a res.json call writing a JSON object of string fields, or
a thrown exception. -/
inductive Effect where
  | logError (s : String)
  | setStatus (n : Nat)
  | jsonBody (fields : List (String × String))
  | raise (e : JsError)
deriving DecidableEq

/-- App.handleErrors from src/apps.ts lines 63-75, as the ordered trace of
effects it performs: logger.error(error.message); logger.error(error.stack)
when a stack is present; then, when the error is an OrbError,
res.status(error.httpStatusCode) and res.json with the single field
error = error.message, and otherwise res.status(500) with the same body. -/
def App.handleErrors (error : JsError) : List Effect :=
  [Effect.logError error.message] ++
    (match error.stack with
      | some s => [Effect.logError s]
      | none => []) ++
    (match error.httpStatusCode with
      | some code => [Effect.setStatus code, Effect.jsonBody [("error", error.message)]]
      | none => [Effect.setStatus 500, Effect.jsonBody [("error", error.message)]])

/-- The status carried by the first res.status call in an effect trace. -/
def responseStatus : List Effect → Option Nat
  | [] => none
  | Effect.setStatus n :: _ => some n
  | _ :: rest => responseStatus rest

/-- The JSON object carried by the first res.json call in an effect trace. -/
def responseBody : List Effect → Option (List (String × String))
  | [] => none
  | Effect.jsonBody b :: _ => some b
  | _ :: rest => responseBody rest

/-- Whether an effect is a thrown exception. -/
def Effect.isRaise : Effect → Bool
  | Effect.raise _ => true
  | _ => false

/-- Whether an effect is a res.json response write. -/
def Effect.isJsonWrite : Effect → Bool
  | Effect.jsonBody _ => true
  | _ => false

/-- Whether an effect is a res.status call. -/
def Effect.isStatusWrite : Effect → Bool
  | Effect.setStatus _ => true
  | _ => false

/-- C1: every error reaching handleErrors that is an OrbError instance gets a
response whose status is the declared httpStatusCode and whose body is the
JSON object with the single field error = message; every error that is not
an OrbError instance gets status exactly 500 with the same JSON shape. -/
theorem handleErrors_classifies_errors (e : JsError) :
    (∀ c : Nat, e.httpStatusCode = some c →
      responseStatus (App.handleErrors e) = some c ∧
      responseBody (App.handleErrors e) = some [("error", e.message)]) ∧
    (e.httpStatusCode = none →
      responseStatus (App.handleErrors e) = some 500 ∧
      responseBody (App.handleErrors e) = some [("error", e.message)]) := by
  obtain ⟨m, stk, code⟩ := e
  constructor
  · intro c hc
    cases code with
    | none => exact absurd hc (by simp)
    | some c0 =>
      cases hc
      cases stk <;> exact ⟨rfl, rfl⟩
  · intro hc
    cases code with
    | some c0 => exact absurd hc (by simp)
    | none => cases stk <;> exact ⟨rfl, rfl⟩

/-- Witness for C1: the theorem applied to a concrete OrbError with status 404
and to a concrete non-OrbError. -/
theorem handleErrors_classifies_errors_witness :
    responseStatus (App.handleErrors ⟨"token not found", none, some 404⟩) = some 404 ∧
    responseStatus (App.handleErrors ⟨"boom", some "trace", none⟩) = some 500 :=
  ⟨((handleErrors_classifies_errors ⟨"token not found", none, some 404⟩).1 404 rfl).1,
   ((handleErrors_classifies_errors ⟨"boom", some "trace", none⟩).2 rfl).1⟩

/-- C6: handleErrors never throws and always terminates the request by
writing a response: for every error value its effect trace contains no
raised exception, exactly one res.status call and exactly one res.json
write. -/
theorem handleErrors_never_throws (e : JsError) :
    (App.handleErrors e).countP Effect.isRaise = 0 ∧
    (App.handleErrors e).countP Effect.isStatusWrite = 1 ∧
    (App.handleErrors e).countP Effect.isJsonWrite = 1 := by
  obtain ⟨m, stk, code⟩ := e
  cases stk <;> cases code <;> exact ⟨rfl, rfl, rfl⟩

/-- A JavaScript number as this layer observes it: NaN, a signed infinity,
or a rational value (the numeric values reachable here are exact). -/
inductive JSNum where
  | nan
  | inf (neg : Bool)
  | val (q : Rat)
deriving DecidableEq

/-- The port argument of start, typed number or string in the source. -/
inductive PortArg where
  | num (n : JSNum)
  | str (s : String)
deriving DecidableEq

/-- The numeric value of one digit character in the given base, as in
JavaScript numeric literals (0-9, a-z, A-Z). -/
def digitVal (base : Nat) (c : Char) : Option Nat :=
  let v : Option Nat :=
    if c.isDigit then some (c.toNat - 48)
    else if 97 ≤ c.toNat ∧ c.toNat ≤ 122 then some (c.toNat - 87)
    else if 65 ≤ c.toNat ∧ c.toNat ≤ 90 then some (c.toNat - 55)
    else none
  match v with
  | some n => if n < base then some n else none
  | none => none

/-- The value of a nonempty digit string in the given base, or none when a
character is not a digit of that base. -/
def digitsToNat (base : Nat) (cs : List Char) : Option Nat :=
  match cs with
  | [] => none
  | _ =>
    cs.foldl
      (fun acc c =>
        match acc, digitVal base c with
        | some a, some d => some (a * base + d)
        | _, _ => none)
      (some 0)

/-- Splits a character list into its leading run of decimal digits and the
remainder. -/
def splitDigits (cs : List Char) : List Char × List Char :=
  (cs.takeWhile Char.isDigit, cs.dropWhile Char.isDigit)

/-- The value of the decimal digits of a run (assumed checked). -/
def decDigitsVal (cs : List Char) : Nat :=
  cs.foldl (fun a c => a * 10 + (c.toNat - 48)) 0

/-- Parses the optional exponent part of a JavaScript decimal literal: either
nothing, or e or E followed by an optional sign and a nonempty digit run. -/
def parseExponent (cs : List Char) : Option Int :=
  match cs with
  | [] => some 0
  | c :: rest =>
    if c = 'e' ∨ c = 'E' then
      let (sgn, ds) :=
        match rest with
        | '+' :: r => ((1 : Int), r)
        | '-' :: r => ((-1 : Int), r)
        | r => ((1 : Int), r)
      if ds ≠ [] ∧ ds.all Char.isDigit then some (sgn * (decDigitsVal ds : Int))
      else none
    else none

/-- The rational value of a decimal literal with integer-and-fraction digits
m, fraction length f and exponent e: m times ten to the power e minus f. -/
def decLiteralVal (m : Nat) (f : Nat) (e : Int) : Rat :=
  (m : Rat) * (10 : Rat) ^ (e - (f : Int))

/-- Parses an unsigned JavaScript decimal literal: digits with an optional
fraction, or a fraction alone, followed by an optional exponent. -/
def parseUnsignedDecimal (cs : List Char) : Option Rat :=
  let (ip, rest) := splitDigits cs
  match rest with
  | '.' :: rest2 =>
    let (fp, rest3) := splitDigits rest2
    if ip = [] ∧ fp = [] then none
    else
      match parseExponent rest3 with
      | some e => some (decLiteralVal (decDigitsVal (ip ++ fp)) fp.length e)
      | none => none
  | _ =>
    if ip = [] then none
    else
      match parseExponent rest with
      | some e => some (decLiteralVal (decDigitsVal ip) 0 e)
      | none => none

/-- Drops whitespace from both ends of a character list. -/
def trimChars (cs : List Char) : List Char :=
  ((cs.dropWhile Char.isWhitespace).reverse.dropWhile Char.isWhitespace).reverse

/-- The signed decimal part of the string-to-number conversion: an optional
sign applied to Infinity or to an unsigned decimal literal. -/
def signedDecimal (cs : List Char) : JSNum :=
  let (neg, body) :=
    match cs with
    | '+' :: r => (false, r)
    | '-' :: r => (true, r)
    | r => (false, r)
  if body = "Infinity".toList then JSNum.inf neg
  else
    match parseUnsignedDecimal body with
    | some q => JSNum.val (if neg then -q else q)
    | none => JSNum.nan

/-- The JavaScript Number conversion on strings (the StringNumericLiteral
grammar): surrounding whitespace is dropped, the empty string is 0, a 0x, 0o
or 0b prefix introduces an unsigned non-decimal integer, and otherwise an
optionally signed Infinity or decimal literal; anything else is NaN. -/
def jsStringToNumber (s : String) : JSNum :=
  let t := trimChars s.toList
  match t with
  | [] => JSNum.val 0
  | '0' :: c :: rest =>
    if c = 'x' ∨ c = 'X' then
      match digitsToNat 16 rest with
      | some n => JSNum.val (n : Rat)
      | none => JSNum.nan
    else if c = 'o' ∨ c = 'O' then
      match digitsToNat 8 rest with
      | some n => JSNum.val (n : Rat)
      | none => JSNum.nan
    else if c = 'b' ∨ c = 'B' then
      match digitsToNat 2 rest with
      | some n => JSNum.val (n : Rat)
      | none => JSNum.nan
    else signedDecimal t
  | _ => signedDecimal t

/-- The JavaScript Number conversion applied to the port argument: the
identity on numbers and the string conversion on strings. -/
def jsNumber : PortArg → JSNum
  | PortArg.num n => n
  | PortArg.str s => jsStringToNumber s

/-- The state of a gateway instance: the logger reference (modelled by its
presence, which is all the constructor tests), the registrations held by the
owned express server in order, the server settings written with server.set,
the port field (a number, or undefined before start runs), and the fixed
CORS options field. -/
structure AppState where
  loggerPresent : Bool
  serverRegs : List Registration
  serverSettings : List (String × PortArg)
  port : Option JSNum
  opts : CorsOptions
deriving DecidableEq

/-- The fixed CORS options literal assigned to the options field of App at
src/apps.ts lines 31-37. -/
def App.options : CorsOptions :=
  { allowedHeaders := ["Origin", "X-Requested-With", "Content-Type", "Accept", "X-Access-Token"]
    credentials := true
    methods := "GET,HEAD,OPTIONS,PUT,PATCH,POST,DELETE"
    origin := "*"
    preflightContinue := false }

/-- Appends one registration to the express server of a gateway state; this
is what each server.use, server.get, server.post and server.options call
does to the registration-ordered middleware list. -/
def serverUse (st : AppState) (r : Registration) : AppState :=
  { st with serverRegs := st.serverRegs ++ [r] }

/-- The App constructor at src/apps.ts lines 38-62: stores the logger,
creates the express server, then registers compression, morgan combined
access logging guarded by the truthiness of the logger argument, JSON body
parsing, URL-encoded body parsing with extended true, the express validator,
and the cors middleware with the fixed options. -/
def App.construct (logger : Bool) : AppState :=
  let st : AppState :=
    { loggerPresent := logger, serverRegs := [], serverSettings := [],
      port := none, opts := App.options }
  let st := serverUse st (Registration.mw Middleware.compression)
  let st := if logger then serverUse st (Registration.mw Middleware.morganCombined) else st
  let st := serverUse st (Registration.mw Middleware.bodyParserJson)
  let st := serverUse st (Registration.mw (Middleware.bodyParserUrlencoded true))
  let st := serverUse st (Registration.mw Middleware.expressValidator)
  let st := serverUse st (Registration.mw (Middleware.corsMw App.options))
  st

/-- The PublicApp constructor at src/apps.ts lines 96-111: runs the App
constructor, registers the ten public resource routes with their injected
dependencies in source order, then the error handler, then the OPTIONS star
preflight responder with the fixed options. -/
def PublicApp.construct (logger : Bool) : AppState :=
  let st := App.construct logger
  let st := serverUse st (Registration.route HttpMethod.get ("/api/status") ("getStatus") [])
  let st := serverUse st (Registration.route HttpMethod.get ("/api/peers") ("getPeers") [Dep.peerHandler])
  let st := serverUse st (Registration.route HttpMethod.post ("/api/peers") ("becomePeer") [Dep.peerHandler])
  let st := serverUse st (Registration.route HttpMethod.post ("/api/tokens") ("newToken") [Dep.messageBroker])
  let st := serverUse st (Registration.route HttpMethod.post ("/api/transactions") ("newTransactionPartial") [Dep.messageBroker])
  let st := serverUse st (Registration.route HttpMethod.post ("/api/transactions/sign") ("newTransactionFull") [Dep.messageBroker])
  let st := serverUse st (Registration.route HttpMethod.post ("/api/blocks") ("blockMined") [Dep.messageBroker])
  let st := serverUse st (Registration.route HttpMethod.get ("/api/blocks") ("getBlockHashes") [Dep.messageBroker])
  let st := serverUse st (Registration.route HttpMethod.get ("/api/blockheight") ("getBlockHeight") [Dep.messageBroker])
  let st := serverUse st (Registration.route HttpMethod.get ("/api/blocks/:blockHash") ("getBlockByHash") [Dep.messageBroker])
  let st := serverUse st Registration.errorHandler
  let st := serverUse st (Registration.optionsRoute ("*") App.options)
  st

/-- The PrivateApp constructor at src/apps.ts lines 117-134: runs the App
constructor, registers the twelve private resource routes with their
injected dependencies in source order, then the error handler, then the
OPTIONS star preflight responder with the fixed options. -/
def PrivateApp.construct (logger : Bool) : AppState :=
  let st := App.construct logger
  let st := serverUse st (Registration.route HttpMethod.get ("/api/stop") ("stop") [])
  let st := serverUse st (Registration.route HttpMethod.get ("/api/status") ("getStatus") [])
  let st := serverUse st (Registration.route HttpMethod.post ("/api/wallet") ("createWallet") [Dep.messageBroker])
  let st := serverUse st (Registration.route HttpMethod.get ("/api/wallet/balances/:tokenHash") ("getBalances") [Dep.messageBroker])
  let st := serverUse st (Registration.route HttpMethod.get ("/api/wallet/balances/:betaPublicKey/:tokenHash") ("getBilateralBalances") [Dep.messageBroker])
  let st := serverUse st (Registration.route HttpMethod.post ("/api/tokens") ("createToken") [Dep.messageBroker])
  let st := serverUse st (Registration.route HttpMethod.get ("/api/tokens") ("listTokens") [Dep.messageBroker])
  let st := serverUse st (Registration.route HttpMethod.post ("/api/transactions") ("createPartialTransaction") [Dep.messageBroker])
  let st := serverUse st (Registration.route HttpMethod.get ("/api/transactions") ("listPartialTransaction") [Dep.messageBroker])
  let st := serverUse st (Registration.route HttpMethod.post ("/api/transactions/sign") ("createFullTransaction") [Dep.messageBroker])
  let st := serverUse st (Registration.route HttpMethod.get ("/api/options") ("listExercisableOptions") [Dep.messageBroker])
  let st := serverUse st (Registration.route HttpMethod.post ("/api/options/exercise") ("exerciseOption") [Dep.messageBroker])
  let st := serverUse st Registration.errorHandler
  let st := serverUse st (Registration.optionsRoute ("*") App.options)
  st

/-- Whether a registration is a resource route binding. -/
def isResourceRoute : Registration → Bool
  | Registration.route _ _ _ _ => true
  | _ => false

/-- Whether a registration is the error-handling middleware. -/
def isErrorHandlerReg : Registration → Bool
  | Registration.errorHandler => true
  | _ => false

/-- Whether a registration is the OPTIONS preflight responder. -/
def isOptionsRouteReg : Registration → Bool
  | Registration.optionsRoute _ _ => true
  | _ => false

/-- Index of the error-handling middleware in a registration list. -/
def errorHandlerIdx (regs : List Registration) : Nat :=
  regs.findIdx isErrorHandlerReg

/-- Index of the OPTIONS preflight responder in a registration list. -/
def optionsRouteIdx (regs : List Registration) : Nat :=
  regs.findIdx isOptionsRouteReg

/-- The registration-order property: the error handler appears, ahead of the
preflight responder, which is in range, and every resource route appears
strictly before the error handler. -/
def registrationOrderOk (regs : List Registration) : Bool :=
  decide (errorHandlerIdx regs < optionsRouteIdx regs) &&
  decide (optionsRouteIdx regs < regs.length) &&
  ((List.range regs.length).all fun i =>
    !(isResourceRoute (regs.getD i Registration.errorHandler)) ||
      decide (i < errorHandlerIdx regs))

/-- C2: on both surfaces the error translator is registered after every
resource route and the OPTIONS star preflight responder is registered after
the error translator, in the registration-ordered middleware list. -/
theorem error_translator_and_preflight_last : ∀ logger : Bool,
    registrationOrderOk (PublicApp.construct logger).serverRegs = true ∧
    registrationOrderOk (PrivateApp.construct logger).serverRegs = true := by
  intro logger
  cases logger <;> exact ⟨by decide, by decide⟩

/-- C4: the public surface registers exactly the ten route bindings of the
public route table, each constructed with exactly the declared dependency:
the status route with none, the two peers routes with the peer handler only,
and the token, transaction and block routes with the message broker only. -/
theorem public_route_table_exact : ∀ logger : Bool,
    ((PublicApp.construct logger).serverRegs.filter isResourceRoute) =
      [Registration.route HttpMethod.get ("/api/status") ("getStatus") [],
       Registration.route HttpMethod.get ("/api/peers") ("getPeers") [Dep.peerHandler],
       Registration.route HttpMethod.post ("/api/peers") ("becomePeer") [Dep.peerHandler],
       Registration.route HttpMethod.post ("/api/tokens") ("newToken") [Dep.messageBroker],
       Registration.route HttpMethod.post ("/api/transactions") ("newTransactionPartial") [Dep.messageBroker],
       Registration.route HttpMethod.post ("/api/transactions/sign") ("newTransactionFull") [Dep.messageBroker],
       Registration.route HttpMethod.post ("/api/blocks") ("blockMined") [Dep.messageBroker],
       Registration.route HttpMethod.get ("/api/blocks") ("getBlockHashes") [Dep.messageBroker],
       Registration.route HttpMethod.get ("/api/blockheight") ("getBlockHeight") [Dep.messageBroker],
       Registration.route HttpMethod.get ("/api/blocks/:blockHash") ("getBlockByHash") [Dep.messageBroker]] := by
  intro logger
  cases logger <;> rfl

/-- C5: the App constructor installs exactly the pipeline compression,
morgan access logging (present if and only if a logger is supplied), JSON
body parsing, URL-encoded body parsing with extended true, the validator,
and CORS with the fixed options, in that order; and on both surfaces no
resource route is registered before this pipeline. -/
theorem middleware_pipeline_order : ∀ logger : Bool,
    (App.construct logger).serverRegs =
      [Registration.mw Middleware.compression] ++
        (if logger then [Registration.mw Middleware.morganCombined] else []) ++
        [Registration.mw Middleware.bodyParserJson,
         Registration.mw (Middleware.bodyParserUrlencoded true),
         Registration.mw Middleware.expressValidator,
         Registration.mw (Middleware.corsMw App.options)] ∧
    ((Registration.mw Middleware.morganCombined) ∈ (App.construct logger).serverRegs ↔
      logger = true) ∧
    (App.construct logger).serverRegs.countP isResourceRoute = 0 ∧
    (PublicApp.construct logger).serverRegs.take (App.construct logger).serverRegs.length =
      (App.construct logger).serverRegs ∧
    (PrivateApp.construct logger).serverRegs.take (App.construct logger).serverRegs.length =
      (App.construct logger).serverRegs := by
  intro logger
  cases logger <;> refine ⟨rfl, ?_, rfl, rfl, rfl⟩ <;> decide

/-- Splits a character list on commas (the separator of the methods string
of the CORS options). -/
def splitOnComma (cs : List Char) : List (List Char) :=
  match cs with
  | [] => [[]]
  | c :: rest =>
    let r := splitOnComma rest
    if c = ',' then [] :: r
    else
      match r with
      | [] => [[c]]
      | h :: t => (c :: h) :: t

/-- The CORS policies carried by the cors middleware and by the OPTIONS
preflight responder of a registration list, in order. -/
def corsPolicies (regs : List Registration) : List CorsOptions :=
  regs.filterMap fun r =>
    match r with
    | Registration.mw (Middleware.corsMw o) => some o
    | Registration.optionsRoute _ o => some o
    | _ => none

/-- C7: both surfaces carry the one fixed CORS policy, whose values are
exactly the five allowed headers, the seven methods, credentials true,
origin star, and preflightContinue false. -/
theorem cors_policy_fixed_and_shared :
    App.options.allowedHeaders =
      ["Origin", "X-Requested-With", "Content-Type", "Accept", "X-Access-Token"] ∧
    (splitOnComma App.options.methods.toList).map List.asString =
      ["GET", "HEAD", "OPTIONS", "PUT", "PATCH", "POST", "DELETE"] ∧
    App.options.credentials = true ∧
    App.options.origin = "*" ∧
    App.options.preflightContinue = false ∧
    ∀ logger : Bool,
      corsPolicies (PublicApp.construct logger).serverRegs = [App.options, App.options] ∧
      corsPolicies (PrivateApp.construct logger).serverRegs = [App.options, App.options] := by
  refine ⟨rfl, by decide, rfl, rfl, rfl, ?_⟩
  intro logger
  cases logger <;> exact ⟨rfl, rfl⟩

/-- The dependencies injected into a route binding. -/
def routeDeps : Registration → List Dep
  | Registration.route _ _ _ ds => ds
  | _ => []

/-- The path of a route binding. -/
def routePath : Registration → String
  | Registration.route _ p _ _ => p
  | _ => ""

/-- C9: on the private surface every route binding with a dependency gets
the message broker as its sole dependency, no other handler is ever
injected, and the stop and status routes get no dependency at all. -/
theorem private_routes_broker_only : ∀ logger : Bool,
    (((PrivateApp.construct logger).serverRegs.filter isResourceRoute).all
      (fun r => routeDeps r = [] || routeDeps r = [Dep.messageBroker])) = true ∧
    (((PrivateApp.construct logger).serverRegs.filter isResourceRoute).all
      (fun r => (routeDeps r).all fun d =>
        !(d = Dep.walletHandler || d = Dep.tokenHandler || d = Dep.peerHandler ||
          d = Dep.transactionHandler || d = Dep.blockHandler))) = true ∧
    (((PrivateApp.construct logger).serverRegs.filter
        (fun r => isResourceRoute r &&
          (routePath r = "/api/stop" || routePath r = "/api/status"))).all
      (fun r => routeDeps r = [])) = true ∧
    ((PrivateApp.construct logger).serverRegs.filter
        (fun r => isResourceRoute r &&
          (routePath r = "/api/stop" || routePath r = "/api/status"))).length = 2 := by
  intro logger
  cases logger <;> exact ⟨rfl, rfl, rfl, rfl⟩

/-- Reads a server setting, as express server.get does: the most recent
value written for the key. -/
def getSetting (settings : List (String × PortArg)) (k : String) : Option PortArg :=
  (settings.find? fun kv => kv.1 == k).map Prod.snd

/-- Writes a server setting, as server.set does; the write shadows any
earlier value for the key. -/
def setSetting (settings : List (String × PortArg)) (k : String) (v : PortArg) :
    List (String × PortArg) :=
  (k, v) :: settings

/-- The observable outcome of one start call: the gateway state after the
call, the listen calls issued with their arguments, and the promise
outcome. -/
structure StartOutcome where
  state : AppState
  listenCalls : List (PortArg × String)
  promise : Except JsError Unit

/-- App.start at src/apps.ts lines 77-89: sets this.port to Number(port)
and the server port setting to the raw port argument, then calls
server.listen once with the port and bind address; the returned promise
rejects with the error the listen callback receives and resolves otherwise.
The error the underlying server reports to the callback is the listenError
parameter of the model. -/
def App.start (st : AppState) (port : PortArg) (bind : String)
    (listenError : Option JsError) : StartOutcome :=
  let st1 := { st with port := some (jsNumber port) }
  let st2 := { st1 with serverSettings := setSetting st1.serverSettings ("port") port }
  { state := st2
    listenCalls := [(port, bind)]
    promise :=
      match listenError with
      | some e => Except.error e
      | none => Except.ok () }

/-- C3: the promise returned by start resolves exactly when the underlying
server reports it is listening, rejects with the underlying bind error
passed through unchanged otherwise, and the layer issues exactly one listen
call, so a failed bind is never retried. -/
theorem start_promise_semantics (st : AppState) (port : PortArg) (bind : String)
    (listenError : Option JsError) :
    (listenError = none → (App.start st port bind listenError).promise = Except.ok ()) ∧
    (∀ e : JsError, listenError = some e →
      (App.start st port bind listenError).promise = Except.error e) ∧
    (App.start st port bind listenError).listenCalls = [(port, bind)] := by
  refine ⟨?_, ?_, rfl⟩
  · intro h; subst h; rfl
  · intro e h; subst h; rfl

/-- Witness for C3: a concrete bind failure rejects with that error and a
concrete successful bind resolves. -/
theorem start_promise_semantics_witness :
    (App.start (App.construct true) (PortArg.num (JSNum.val 8080)) ("0.0.0.0")
        (some ⟨"EADDRINUSE", none, none⟩)).promise =
      Except.error ⟨"EADDRINUSE", none, none⟩ ∧
    (App.start (App.construct true) (PortArg.num (JSNum.val 8080)) ("0.0.0.0")
        none).promise = Except.ok () :=
  ⟨(start_promise_semantics (App.construct true) (PortArg.num (JSNum.val 8080)) ("0.0.0.0")
      (some ⟨"EADDRINUSE", none, none⟩)).2.1 ⟨"EADDRINUSE", none, none⟩ rfl,
   (start_promise_semantics (App.construct true) (PortArg.num (JSNum.val 8080)) ("0.0.0.0")
      none).1 rfl⟩

/-- C10: start sets the port field to Number(port) and the server port
setting to the raw port argument, and these mutations are present in the
resulting state for every listen outcome, bind failures included; a
non-numeric string port leaves the port field NaN; and no other part of the
gateway state changes: settings under other keys, the logger, the
registrations and the CORS options are untouched. -/
theorem start_frame_effects (st : AppState) (port : PortArg) (bind : String)
    (listenError : Option JsError) :
    (App.start st port bind listenError).state.port = some (jsNumber port) ∧
    getSetting (App.start st port bind listenError).state.serverSettings ("port") =
      some port ∧
    (∀ k : String, k ≠ "port" →
      getSetting (App.start st port bind listenError).state.serverSettings k =
        getSetting st.serverSettings k) ∧
    (App.start st port bind listenError).state.loggerPresent = st.loggerPresent ∧
    (App.start st port bind listenError).state.serverRegs = st.serverRegs ∧
    (App.start st port bind listenError).state.opts = st.opts ∧
    jsNumber (PortArg.str ("abc")) = JSNum.nan := by
  refine ⟨rfl, ?_, ?_, rfl, rfl, rfl, by decide⟩
  · simp [App.start, getSetting, setSetting]
  · intro k hk
    have hne : (("port" : String) == k) = false := by
      simp only [beq_eq_false_iff_ne, ne_eq]
      exact fun h => hk h.symm
    simp [App.start, getSetting, setSetting, List.find?, hne]

/-- Witness for C10: with a concrete gateway, a failing bind and the string
port argument 8080, the setting under another key is unchanged. -/
theorem start_frame_effects_witness :
    getSetting (App.start (App.construct false) (PortArg.str ("8080")) ("127.0.0.1")
        (some ⟨"EACCES", none, none⟩)).state.serverSettings ("env") =
      getSetting (App.construct false).serverSettings ("env") :=
  (start_frame_effects (App.construct false) (PortArg.str ("8080")) ("127.0.0.1")
      (some ⟨"EACCES", none, none⟩)).2.2.1 ("env") (by decide)

/-- The write method of the morgan log stream at src/apps.ts lines 46-50,
as the ordered list of logger.info calls it makes: the message is split on
the newline character, segments of length zero are dropped, and each
remaining segment is passed to the logger in order. -/
def logStreamWrite (message : String) : List String :=
  (message.splitOn ("\n")).filter fun msg => msg.length > 0

/-- C8: for every message written to the access-log stream, the logger
receives exactly the non-empty segments of the message split on newlines,
one call per segment; no call carries an empty segment, and the emitted
list is a sublist of the split, so the original order is kept. -/
theorem log_stream_write_segments (message : String) :
    logStreamWrite message = (message.splitOn ("\n")).filter (fun s => !(s == "")) ∧
    (logStreamWrite message).countP (fun s => s == "") = 0 ∧
    (logStreamWrite message).Sublist (message.splitOn ("\n")) := by
  have hlen : ∀ s : String, s ≠ "" → 0 < s.length := by
    intro s h
    cases s with
    | mk data =>
      cases data with
      | nil => exact absurd rfl h
      | cons c cs => simp [String.length]
  have hpred : ∀ s : String, (decide (s.length > 0)) = !(s == "") := by
    intro s
    by_cases h : s = ""
    · subst h; decide
    · simp [h, hlen s h]
  have heq : logStreamWrite message =
      (message.splitOn ("\n")).filter (fun s => !(s == "")) := by
    unfold logStreamWrite
    congr 1
    funext s
    exact hpred s
  refine ⟨heq, ?_, ?_⟩
  · rw [heq]
    refine List.countP_eq_zero.mpr ?_
    intro a ha
    have := List.mem_filter.mp ha
    simpa using this.2
  · rw [heq]
    exact List.filter_sublist _
